import Mathlib

/-!
# Verification of the VLURes VLM-orchestration scripts

Shallow embedding of the coordination core of `run_gemini_async.py`
(direct Gemini mode) and `run_vlm_batch.py` (OpenAI batch mode):
item loading (numeric-ID extraction, image/text pairing), the
per-(language, task) checkpoint store, the dispatch loops of both
modes, batch-result reconciliation, and the final numeric sort.

External effects (filesystem existence checks, the remote model, the
batch API) are modelled as explicit parameters: a directory is a list
of file names, the model is an oracle function, and a batch job's
lifecycle is an oracle from attempt number to outcome.  Python `dict`s
(which preserve insertion order) are modelled as association lists
with insertion-order semantics.
-/

namespace VLURes

/-! ## Python string primitives

`str.isdigit` is modelled on its ASCII fragment (the corpus filenames
are ASCII); `int(...)` on strings is modelled for plain digit strings,
the only shape produced by the scripts. -/

/-- Numeric value of a decimal digit character. -/
def digitVal (c : Char) : Nat := c.toNat - 48

/-- Value of a digit string, most significant digit first:
the model of Python `int(...)` applied to a non-empty digit string. -/
def digitsToNat (cs : List Char) : Nat :=
  cs.foldl (fun acc c => 10 * acc + digitVal c) 0

/-- `''.join(filter(str.isdigit, s))`: the digit characters of `s`, in order. -/
def digitsOf (s : String) : List Char := s.data.filter Char.isDigit

/-- Model of Python `int(...)` on a string: defined (`some`) exactly on
non-empty all-digit strings, the domain over which the scripts call it;
anything else raises `ValueError`, modelled as `none`. -/
def pyInt (s : String) : Option Nat :=
  if s.data ≠ [] ∧ s.data.all Char.isDigit then some (digitsToNat s.data) else none

/-- Decimal digit character of `d < 10` (Python's digit printing). -/
def decChar (d : Nat) : Char := Char.ofNat (48 + d)

/-- Decimal digits of `n`, least significant first, with explicit fuel
(structural recursion, so proofs and `decide` can evaluate it). -/
def decDigitsRevAux : Nat → Nat → List Char
  | _, 0 => []
  | 0, _ + 1 => []
  | fuel + 1, n + 1 =>
    decChar ((n + 1) % 10) :: decDigitsRevAux fuel ((n + 1) / 10)

/-- Model of Python `str(...)` on a non-negative integer: its decimal form.
This is the string form every checkpoint key takes when inserted. -/
def natToKey (n : Nat) : String :=
  if n = 0 then "0" else ⟨(decDigitsRevAux n n).reverse⟩

theorem decChar_isDigit {d : Nat} (h : d < 10) : (decChar d).isDigit = true := by
  interval_cases d <;> decide

theorem digitVal_decChar {d : Nat} (h : d < 10) : digitVal (decChar d) = d := by
  interval_cases d <;> decide

theorem decDigitsRevAux_all_digit (fuel n : Nat) :
    (decDigitsRevAux fuel n).all Char.isDigit = true := by
  induction fuel generalizing n with
  | zero => cases n <;> simp [decDigitsRevAux]
  | succ fuel ih =>
    cases n with
    | zero => simp [decDigitsRevAux]
    | succ m =>
      rw [decDigitsRevAux]
      simp only [List.all_cons, Bool.and_eq_true]
      exact ⟨decChar_isDigit (Nat.mod_lt _ (by omega)), ih _⟩

theorem decDigitsRevAux_ne_nil {fuel n : Nat} (hn : n ≠ 0) (hf : fuel ≠ 0) :
    decDigitsRevAux fuel n ≠ [] := by
  cases n with
  | zero => exact absurd rfl hn
  | succ m =>
    cases fuel with
    | zero => exact absurd rfl hf
    | succ f => rw [decDigitsRevAux]; exact List.cons_ne_nil _ _

theorem foldr_decDigitsRevAux {fuel n : Nat} (h : n ≤ fuel) :
    (decDigitsRevAux fuel n).foldr (fun c acc => 10 * acc + digitVal c) 0 = n := by
  induction fuel generalizing n with
  | zero =>
    interval_cases n
    simp [decDigitsRevAux]
  | succ fuel ih =>
    cases n with
    | zero => simp [decDigitsRevAux]
    | succ m =>
      rw [decDigitsRevAux, List.foldr_cons]
      rw [ih (by omega : (m + 1) / 10 ≤ fuel)]
      rw [digitVal_decChar (Nat.mod_lt _ (by omega))]
      omega

/-- Round trip: parsing the decimal form of `n` with `int` gives back `n`.
This is the fact that makes the final `sorted(..., key=int)` total. -/
theorem pyInt_natToKey (n : Nat) : pyInt (natToKey n) = some n := by
  by_cases h : n = 0
  · subst h; decide
  · unfold natToKey pyInt
    simp only [h, if_false]
    have hne : (decDigitsRevAux n n).reverse ≠ [] := by
      intro hc
      exact decDigitsRevAux_ne_nil h h (by simpa using hc)
    have hall : (decDigitsRevAux n n).reverse.all Char.isDigit = true := by
      rw [List.all_reverse]; exact decDigitsRevAux_all_digit n n
    rw [if_pos (⟨hne, hall⟩ : _ ∧ _)]
    unfold digitsToNat
    rw [List.foldl_reverse]
    congr 1
    have := foldr_decDigitsRevAux (Nat.le_refl n)
    simpa using this

/-! ## Path primitives

`os.path.basename` and the stem half of `os.path.splitext`, including
Python's rule that a leading run of dots never starts an extension. -/

/-- `os.path.basename`: the part of the path after the last slash. -/
def basename (s : String) : String :=
  ⟨(s.data.reverse.takeWhile (fun c => c ≠ '/')).reverse⟩

/-- The stem component of `os.path.splitext`: everything before the last
dot, unless every character before that dot is itself a dot (Python treats
such names, e.g. `...`, as having no extension). -/
def splitextStem (s : String) : String :=
  match s.data.reverse.dropWhile (fun c => c ≠ '.') with
  | [] => s
  | _ :: before => if before.any (fun c => c ≠ '.') then ⟨before.reverse⟩ else s

/-! ## Numeric-ID extraction (both scripts) -/

/-- `get_image_id_from_path` of `run_gemini_async.py`: digits of the
filename stem, `None` when the stem has no digits. -/
def getImageIdFromPath (imagePath : String) : Option Nat :=
  let namePart := splitextStem (basename imagePath)
  let digits := digitsOf namePart
  if digits = [] then none else some (digitsToNat digits)

/-- `get_image_id` of `run_vlm_batch.py`: `int` of the digits of the
filename stem.  A stem with no digits makes `int('')` raise `ValueError`,
modelled as `none`; every call site catches that exception. -/
def getImageId (imageName : String) : Option Nat :=
  let namePart := splitextStem (basename imageName)
  let digits := digitsOf namePart
  if digits = [] then none else some (digitsToNat digits)

/-! ## Text-file pairing (both scripts)

`find_matching_text_file` only ever tests the existence of candidate
names inside the image's own directory, so the filesystem is modelled
as the list `fs` of file names in that directory and the image by its
name within it. -/

/-- First candidate name that exists in the directory (the `for` loop
over `potential_text_names`). -/
def firstExisting (fs : List String) (cands : List String) : Option String :=
  cands.find? (fun c => fs.contains c)

/-- `find_matching_text_file` of `run_gemini_async.py`: exact-stem
`.txt`/`.text` first, then the ID-based names built from the parsed
integer ID. -/
def findMatchingTextFileGemini (fs : List String) (imageName : String) : Option String :=
  let stem := splitextStem imageName
  if fs.contains (stem ++ ".txt") then some (stem ++ ".txt")
  else if fs.contains (stem ++ ".text") then some (stem ++ ".text")
  else
    match getImageIdFromPath imageName with
    | some n =>
        firstExisting fs
          [ "text" ++ natToKey n ++ ".txt", "text" ++ natToKey n ++ ".text",
            natToKey n ++ ".txt", natToKey n ++ ".text" ]
    | none => none

/-- `find_matching_text_file` of `run_vlm_batch.py`: gives up when the
stem has no digits, and otherwise tries the ID-based names (built from
the raw digit string) BEFORE the exact-stem names. -/
def findMatchingTextFileBatch (fs : List String) (imageName : String) : Option String :=
  let stem := splitextStem imageName
  let ids : List Char := digitsOf stem
  if ids = [] then none
  else
    let idStr : String := ⟨ids⟩
    firstExisting fs
      [ "text" ++ idStr ++ ".txt", "text" ++ idStr ++ ".text",
        idStr ++ ".txt", idStr ++ ".text",
        stem ++ ".txt", stem ++ ".text" ]

/-! ## Python dict as insertion-ordered association list -/

/-- Lookup in an insertion-ordered mapping (`d[k]` / `k in d`). -/
def lookupKey (m : List (String × String)) (k : String) : Option String :=
  (m.find? (fun kv => kv.1 == k)).map Prod.snd

/-- Assignment `d[k] = v` on an insertion-ordered dict: replaces the
binding in place when the key is present, appends it otherwise. -/
def setKey : List (String × String) → String → String → List (String × String)
  | [], k, v => [(k, v)]
  | kv :: rest, k, v =>
    if kv.1 == k then (k, v) :: rest else kv :: setKey rest k v

/-- The key list of a mapping, in insertion order. -/
def keysOf (m : List (String × String)) : List String := m.map Prod.fst

/-! ## The final numeric sort (`sorted(items, key=lambda kv: int(kv[0]))`) -/

/-- Comparison used by the finalizer: numeric value of the key. -/
def intKeyLE (a b : String × String) : Prop :=
  (pyInt a.1).getD 0 ≤ (pyInt b.1).getD 0

instance : DecidableRel intKeyLE := fun a b =>
  inferInstanceAs (Decidable ((pyInt a.1).getD 0 ≤ (pyInt b.1).getD 0))

instance : IsTotal (String × String) intKeyLE :=
  ⟨fun a b => Nat.le_total ((pyInt a.1).getD 0) ((pyInt b.1).getD 0)⟩

instance : IsTrans (String × String) intKeyLE := ⟨fun _ _ _ => Nat.le_trans⟩

/-- `OrderedDict(sorted(results.items(), key=lambda kv: int(kv[0])))`.
Python materialises `int(kv[0])` for every entry before comparing, so an
unparsable key raises (`none`); otherwise the entries are stably sorted
by numeric key (CPython's sort is stable, as is insertion sort by `≤`). -/
def sortByIntKey (m : List (String × String)) : Option (List (String × String)) :=
  if m.all (fun kv => (pyInt kv.1).isSome) then
    some (List.insertionSort intKeyLE m)
  else none

/-! ## Direct (Gemini) mode: per-item processing and the run loop -/

/-- One unit of work: an image, optionally paired with a text file. -/
structure WorkItem where
  imagePath : String
  textPath : Option String
deriving DecidableEq, Repr

/-- The local-I/O and remote-model collaborators of the direct-mode
processor.  `encodeImage` models `encode_image_to_base64` (`none` on
error), `readTextFile` models `read_text_file` (`none` on error), and
`respond` models `generate_gemini_response` on the item's prompt (which
by construction always returns a string, see `generateGeminiResponse`). -/
structure GeminiEnv where
  encodeImage : String → Option String
  readTextFile : String → Option String
  respond : WorkItem → String

/-- Python truthiness of `base64_image` (`if not base64_image`): failed
encodings (`None`) and empty strings are both falsy. -/
def strFalsy : Option String → Bool
  | none => true
  | some s => s.isEmpty

/-- `process_single_item_gemini`: returns the `(key, result)` pair that
the dispatch loop stores into `task_results`.  Every failure is encoded
as an `Error: ...` result string, never an exception. -/
def processSingleItemGemini (env : GeminiEnv) (item : WorkItem) : String × String :=
  match getImageIdFromPath item.imagePath with
  | none => (basename item.imagePath, "Error: Could not parse image ID")
  | some n =>
    if strFalsy (env.encodeImage item.imagePath) then
      (natToKey n, "Error: Image encoding failed")
    else
      match item.textPath with
      | some tp =>
        match env.readTextFile tp with
        | none => (natToKey n, "Error: Could not read text file")
        | some _ => (natToKey n, env.respond item)
      | none => (natToKey n, env.respond item)

/-- The `remaining_items` filter of `run_task_for_language_gemini`:
keep an item iff its ID parses and its string form is not already a
checkpoint key. -/
def remainingItemsGemini (processedIds : List String) (items : List WorkItem) :
    List WorkItem :=
  items.filter (fun it =>
    match getImageIdFromPath it.imagePath with
    | some n => !(processedIds.contains (natToKey n))
    | none => false)

/-- The state of `task_results` after the `as_completed` merge loop.
`arrivalOrder` is the completion order of the dispatched requests (an
arbitrary permutation of the remaining items); results are merged
first-completed-first. -/
def geminiLoopResults (env : GeminiEnv) (cp : List (String × String))
    (arrivalOrder : List WorkItem) : List (String × String) :=
  arrivalOrder.foldl (fun acc it =>
    let r := processSingleItemGemini env it
    setKey acc r.1 r.2) cp

/-- The mapping held by the checkpoint file when
`run_task_for_language_gemini` finishes: the final `save_checkpoint`
writes the UNSORTED `task_results` (completion order); on the
early-return path no save happens and the file keeps the loaded
mapping `cp`. -/
def geminiFinalCheckpoint (env : GeminiEnv) (cp : List (String × String))
    (items : List WorkItem) (arrivalOrder : List WorkItem) : List (String × String) :=
  if (remainingItemsGemini (keysOf cp) items).isEmpty then cp
  else geminiLoopResults env cp arrivalOrder

/-- Number of model requests the dispatcher issues for this run: one per
remaining item. -/
def geminiRequestCount (cp : List (String × String)) (items : List WorkItem) : Nat :=
  (remainingItemsGemini (keysOf cp) items).length

/-- `run_task_for_language_gemini`: the mapping returned to `main`,
which writes it as the final output artifact.  When no items remain the
loaded checkpoint is returned as is (the source's early `return
task_results`); otherwise the merged results are numerically sorted
(`none` models the `int(...)` sort key raising on an unparsable key). -/
def runTaskForLanguageGemini (env : GeminiEnv) (cp : List (String × String))
    (items : List WorkItem) (arrivalOrder : List WorkItem) :
    Option (List (String × String)) :=
  let remaining := remainingItemsGemini (keysOf cp) items
  if remaining.isEmpty then some cp
  else sortByIntKey (geminiLoopResults env cp arrivalOrder)

/-! ## Batch (OpenAI) mode: loader filters, batch preparation,
result reconciliation and the chunk retry loop -/

/-- `get_remaining_images`: images whose ID parses and is not already a
checkpoint key; an ID `ValueError` is caught and the image skipped.
(The source first maps `str` over the checkpoint keys, which are
already strings here.) -/
def getRemainingImages (allImages : List String) (processedIds : List String) :
    List String :=
  allImages.filter (fun p =>
    match getImageId (basename p) with
    | none => false
    | some i => !(processedIds.contains (natToKey i)))

/-- `get_remaining_image_text_pairs`: same filter keyed on the image of
each pair. -/
def getRemainingImageTextPairs (allPairs : List (String × String))
    (processedIds : List String) : List (String × String) :=
  allPairs.filter (fun pr =>
    match getImageId (basename pr.1) with
    | none => false
    | some i => !(processedIds.contains (natToKey i)))

/-- The ID-deduplication pass of `load_images_and_texts`: first
occurrence of each ID wins, files whose stem has no digits raise
`ValueError`, are caught, and are dropped. -/
def uniqueImagesById (paths : List String) : List (Nat × String) :=
  paths.foldl (fun acc p =>
    match getImageId p with
    | none => acc
    | some i => if acc.any (fun e => e.1 == i) then acc else acc ++ [(i, p)]) []

/-- Local-I/O collaborators of the batch-file builders. -/
structure BatchEnv where
  encodeImage : String → Option String
  readTextFile : String → Option String

/-- One request line of a batch input file.  The prompt/image payload of
the request body plays no role in the claims and is omitted; what
matters is that one line exists per item, carrying its correlation ID. -/
structure BatchEntry where
  customId : String
  itemId : Nat
deriving DecidableEq, Repr

/-- The loop body of `prepare_batch_file_image_text` for one pair.  The
state is `(batch_lines, pair_id_map, iteration index)`.  Note the
source inserts into `pair_id_map` BEFORE the text/encode checks, and on
an encoding or text-reading failure it `continue`s — the item is
silently dropped from the submission, with no error result recorded
anywhere.  `stamp` models `int(time.time()*1000)` at each iteration. -/
def prepPairStep (env : BatchEnv) (stamp : Nat → Nat)
    (st : List BatchEntry × List (String × Nat) × Nat) (pr : String × String) :
    List BatchEntry × List (String × Nat) × Nat :=
  let (lines, idMap, idx) := st
  match getImageId (basename pr.1) with
  | none => (lines, idMap, idx + 1)
  | some i =>
    let cid := "pair_" ++ natToKey i ++ "_" ++ natToKey (stamp idx)
    let idMapNew := idMap ++ [(cid, i)]
    let text := env.readTextFile pr.2
    let img := env.encodeImage pr.1
    if strFalsy img then (lines, idMapNew, idx + 1)
    else
      match text with
      | none => (lines, idMapNew, idx + 1)
      | some _ => (lines ++ [{ customId := cid, itemId := i }], idMapNew, idx + 1)

/-- `prepare_batch_file_image_text`: builds the request lines and the
correlation-ID map by folding `prepPairStep` over the chunk's pairs. -/
def prepareBatchFileImageText (env : BatchEnv) (stamp : Nat → Nat)
    (pairs : List (String × String)) : List BatchEntry × List (String × Nat) :=
  let fin := pairs.foldl (prepPairStep env stamp) ([], [], 0)
  (fin.1, fin.2.1)

/-- The loop body of `prepare_batch_file_image_only` for one image. -/
def prepImageStep (env : BatchEnv) (stamp : Nat → Nat)
    (st : List BatchEntry × List (String × Nat) × Nat) (p : String) :
    List BatchEntry × List (String × Nat) × Nat :=
  let (lines, idMap, idx) := st
  match getImageId (basename p) with
  | none => (lines, idMap, idx + 1)
  | some i =>
    let cid := "img_" ++ natToKey i ++ "_" ++ natToKey (stamp idx)
    let idMapNew := idMap ++ [(cid, i)]
    let img := env.encodeImage p
    if strFalsy img then (lines, idMapNew, idx + 1)
    else (lines ++ [{ customId := cid, itemId := i }], idMapNew, idx + 1)

/-- `prepare_batch_file_image_only`: as above without the text file. -/
def prepareBatchFileImageOnly (env : BatchEnv) (stamp : Nat → Nat)
    (paths : List String) : List BatchEntry × List (String × Nat) :=
  let fin := paths.foldl (prepImageStep env stamp) ([], [], 0)
  (fin.1, fin.2.1)

/-- Decoded shape of one line of a batch output artifact. -/
inductive LineBody where
  /-- `response.status_code == 200` with a non-empty `choices` list. -/
  | okContent (content : String)
  /-- `response.status_code == 200` but `choices` is empty. -/
  | okNoChoices
  /-- Missing/falsy `response` or a non-200 status: the displayed status
  (`none` renders as `N/A`) and the error message (`none` renders as
  `Unknown error`). -/
  | err (statusCode : Option Nat) (message : Option String)
deriving DecidableEq, Repr

/-- One raw line of the output artifact: either undecodable JSON
(skipped with a log line) or a decoded record. -/
inductive BatchLine where
  | malformed
  | parsed (customId : String) (body : LineBody)
deriving DecidableEq, Repr

/-- Correlation-ID lookup (`custom_id in id_map`). -/
def lookupIdMap (idMap : List (String × Nat)) (cid : String) : Option Nat :=
  (idMap.find? (fun e => e.1 == cid)).map Prod.snd

/-- Displayed status of an error line (`response_data.get('status_code', 'N/A')`). -/
def statusDisplay : Option Nat → String
  | some n => natToKey n
  | none => "N/A"

/-- The per-line body of the `process_batch_results` loop: unknown
correlation IDs and undecodable lines are skipped (warnings); a non-200
line is recorded as an error string for its item. -/
def foldBatchLine (idMap : List (String × Nat)) (results : List (String × String))
    (line : BatchLine) : List (String × String) :=
  match line with
  | .malformed => results
  | .parsed cid body =>
    match lookupIdMap idMap cid with
    | none => results
    | some i =>
      let key := natToKey i
      match body with
      | .okContent c => setKey results key c
      | .okNoChoices => setKey results key "Error: No choices in response."
      | .err sc msg =>
        setKey results key
          ("Error: Status " ++ statusDisplay sc ++ ", Message: " ++
            msg.getD "Unknown error")

/-- `process_batch_results`: fold the output lines into a fresh result
mapping. -/
def processBatchResults (lines : List BatchLine) (idMap : List (String × Nat)) :
    List (String × String) :=
  lines.foldl (foldBatchLine idMap) []

/-- `task_results.update(batch_run_results)`. -/
def updateResults (m upd : List (String × String)) : List (String × String) :=
  upd.foldl (fun acc kv => setKey acc kv.1 kv.2) m

/-- Outcome of one iteration of the per-chunk retry loop (one
`create_batch_job` call followed by `poll_batch_status`). -/
inductive IterOutcome where
  /-- `create_batch_job` returned `None`. -/
  | createFail
  /-- polling never reached a terminal status (`poll_batch_status`
  returned `None`). -/
  | pollNone
  /-- terminal `completed` with an output artifact, decoded as `lines`. -/
  | completedOk (lines : List BatchLine)
  /-- terminal `completed` but `output_file_id` is missing. -/
  | completedNoOutput
  /-- terminal `failed`, `cancelled` or `expired`. -/
  | terminalFailed
  /-- any other status leaking out of the poll loop. -/
  | unexpectedStatus

/-- Result of running one chunk's retry loop: the `create_batch_job`
calls that were made (each recorded by the input-artifact file ID it
was given), the resulting `task_results`, and whether the chunk
succeeded. -/
structure ChunkRun where
  submissions : List String
  results : List (String × String)
  succeeded : Bool
deriving Repr

/-- The `while retries <= max_retries and not batch_succeeded` loop of
`process_task_for_language_batch`, one chunk.  Every iteration calls
`create_batch_job(file_id)` with the SAME `file_id` (the artifact
uploaded once before the loop); every non-success branch increments
`retries` and leaves `task_results` untouched; a successful completion
merges the reconciled results and saves the checkpoint.  The fuel is
`max_retries + 1 - retries`, which bounds the iterations exactly as the
loop condition does. -/
def chunkLoopAux (oracle : Nat → IterOutcome) (fileId : String)
    (idMap : List (String × Nat)) :
    List (String × String) → List String → Nat → Nat → ChunkRun
  | taskResults, subs, _, 0 => ⟨subs, taskResults, false⟩
  | taskResults, subs, retries, fuel + 1 =>
    let subs := subs ++ [fileId]
    match oracle retries with
    | .completedOk lines =>
      ⟨subs, updateResults taskResults (processBatchResults lines idMap), true⟩
    | _ => chunkLoopAux oracle fileId idMap taskResults subs (retries + 1) fuel

/-- The per-chunk retry loop, started with `retries = 0`. -/
def chunkRetryLoop (oracle : Nat → IterOutcome) (fileId : String)
    (idMap : List (String × Nat)) (maxRetries : Nat)
    (taskResults : List (String × String)) : ChunkRun :=
  chunkLoopAux oracle fileId idMap taskResults [] 0 (maxRetries + 1)

/-- One iteration of the chunk `for` loop of
`process_task_for_language_batch` for an image-text chunk: prepare the
batch file (skipping the chunk when no lines were produced or the ID
map is empty), upload it (`upload` is the file ID, `none` on upload
failure — the chunk is skipped), then run the retry loop. -/
def runBatchChunkImageText (env : BatchEnv) (stamp : Nat → Nat)
    (upload : Option String) (oracle : Nat → IterOutcome) (maxRetries : Nat)
    (pairs : List (String × String)) (taskResults : List (String × String)) :
    List (String × String) :=
  let pm := prepareBatchFileImageText env stamp pairs
  if pm.1.isEmpty || pm.2.isEmpty then taskResults
  else
    match upload with
    | none => taskResults
    | some fid => (chunkRetryLoop oracle fid pm.2 maxRetries taskResults).results

/-! ## Checkpoint persistence (`save_checkpoint`) and crash behaviour -/

/-- Filesystem effects of the checkpoint writer. -/
inductive FileOp where
  /-- `open(path, 'w')`: truncates the file to empty. -/
  | truncate (path : String)
  /-- `json.dump(...)`: appends the full serialised mapping. -/
  | writeAll (path : String) (data : String)
deriving DecidableEq, Repr

/-- A filesystem: path to content (absent files are `none`). -/
def FileSys := String → Option String

/-- Effect of one file operation. -/
def applyOp (fs : FileSys) : FileOp → FileSys
  | .truncate p => fun q => if q = p then some "" else fs q
  | .writeAll p d => fun q => if q = p then some (((fs p).getD "") ++ d) else fs q

/-- Effect of a sequence of file operations. -/
def runOps (fs : FileSys) (ops : List FileOp) : FileSys := ops.foldl applyOp fs

/-- `save_checkpoint`: `open(checkpoint_file, 'w')` followed by
`json.dump(results, f, ...)` — an in-place truncate-then-write of the
checkpoint path itself.  No temporary file and no rename appear
anywhere in either script. -/
def saveCheckpointOps (path data : String) : List FileOp :=
  [.truncate path, .writeAll path data]

/-- A crash during a sequence of file operations: only the first `k`
operations took effect. -/
def crashAfter (fs : FileSys) (ops : List FileOp) (k : Nat) : FileSys :=
  runOps fs (ops.take k)

/-! ## `generate_gemini_response`: retries, backoff, error capture -/

/-- What one API attempt can produce: a response with content, a
response with no content (safety block / empty candidates, carrying the
displayed finish reason and safety ratings), or a raised exception. -/
inductive AttemptOutcome where
  | success (text : String)
  | noContent (finishReason : String) (safety : String)
  | apiError (msg : String)

/-- The error string for a blocked/empty response. -/
def noContentMsg (fr safety : String) : String :=
  "Error: No content in response (Finish reason: " ++ fr ++ ", Safety: " ++ safety ++ ")"

/-- The terminal error string after exhausting all attempts. -/
def afterAttemptsMsg (r : Nat) (e : String) : String :=
  "Error: After " ++ natToKey r ++ " attempts - " ++ e

/-- The `for attempt in range(retry_attempts)` loop of
`generate_gemini_response`.  Returns the result string together with
the list of backoff delays slept (in order).  The fuel is
`retry_attempts - attempt`, so the fall-through return (`Error: Max
retries reached...`) is reached exactly when the range is empty. -/
def generateLoop (oracle : Nat → AttemptOutcome) (retryAttempts retryDelay : Nat) :
    Nat → Nat → String × List Nat
  | _, 0 => ("Error: Max retries reached without success.", [])
  | attempt, fuel + 1 =>
    match oracle attempt with
    | .success t => (t.trim, [])
    | .noContent fr sr => (noContentMsg fr sr, [])
    | .apiError e =>
      if attempt < retryAttempts - 1 then
        ((generateLoop oracle retryAttempts retryDelay (attempt + 1) fuel).1,
          retryDelay * 2 ^ attempt ::
            (generateLoop oracle retryAttempts retryDelay (attempt + 1) fuel).2)
      else (afterAttemptsMsg retryAttempts e, [])

/-- `generate_gemini_response`, from attempt 0.  Total by construction:
whatever the attempt outcomes, it returns a string and never propagates
an exception. -/
def generateGeminiResponse (oracle : Nat → AttemptOutcome)
    (retryAttempts retryDelay : Nat) : String × List Nat :=
  generateLoop oracle retryAttempts retryDelay 0 retryAttempts

/-- `BASE_CONFIG["retry_attempts"]`. -/
def defaultRetryAttempts : Nat := 3

/-- `BASE_CONFIG["retry_delay"]` (seconds). -/
def defaultRetryDelay : Nat := 5

/-! ## Association-list lemmas -/

theorem keysOf_cons (kv : String × String) (m : List (String × String)) :
    keysOf (kv :: m) = kv.1 :: keysOf m := rfl

theorem lookupKey_nil (k : String) : lookupKey [] k = none := rfl

theorem lookupKey_cons (kv : String × String) (m : List (String × String)) (k : String) :
    lookupKey (kv :: m) k = if kv.1 == k then some kv.2 else lookupKey m k := by
  unfold lookupKey
  rw [List.find?]
  by_cases h : kv.1 == k <;> simp [h]

theorem lookupKey_setKey_self (m : List (String × String)) (k v : String) :
    lookupKey (setKey m k v) k = some v := by
  induction m with
  | nil => rw [setKey, lookupKey_cons]; simp
  | cons kv rest ih =>
    rw [setKey]
    by_cases h : kv.1 == k
    · rw [if_pos h, lookupKey_cons]; simp
    · rw [if_neg h, lookupKey_cons, if_neg h, ih]

theorem lookupKey_setKey_ne (m : List (String × String)) {k kq : String} (v : String)
    (h : kq ≠ k) : lookupKey (setKey m k v) kq = lookupKey m kq := by
  have hkk : (k == kq) = false := beq_eq_false_iff_ne.mpr (Ne.symm h)
  induction m with
  | nil => rw [setKey, lookupKey_cons, lookupKey_nil, if_neg (by simp [hkk])]
  | cons kv rest ih =>
    rw [setKey]
    by_cases hk : kv.1 == k
    · have hkv : kv.1 = k := eq_of_beq hk
      have hkvq : (kv.1 == kq) = false := by rw [hkv]; exact hkk
      rw [if_pos hk, lookupKey_cons, lookupKey_cons,
        if_neg (by simp [hkk]), if_neg (by simp [hkvq])]
    · rw [if_neg hk, lookupKey_cons, lookupKey_cons, ih]

theorem keysOf_setKey_mem (m : List (String × String)) {k : String} (v : String)
    (h : k ∈ keysOf m) : keysOf (setKey m k v) = keysOf m := by
  induction m with
  | nil => simp [keysOf] at h
  | cons kv rest ih =>
    rw [setKey]
    by_cases hk : kv.1 == k
    · rw [if_pos hk, keysOf_cons, keysOf_cons, eq_of_beq hk]
    · rw [if_neg hk, keysOf_cons, keysOf_cons]
      have hrest : k ∈ keysOf rest := by
        rw [keysOf_cons] at h
        rcases List.mem_cons.1 h with hc | hc
        · exact absurd (beq_iff_eq.mpr hc.symm) (by simpa using hk)
        · exact hc
      rw [ih hrest]

theorem keysOf_setKey_not_mem (m : List (String × String)) {k : String} (v : String)
    (h : k ∉ keysOf m) : keysOf (setKey m k v) = keysOf m ++ [k] := by
  induction m with
  | nil => rw [setKey]; rfl
  | cons kv rest ih =>
    rw [setKey]
    by_cases hk : kv.1 == k
    · exact absurd (by rw [keysOf_cons, eq_of_beq hk]; exact List.mem_cons_self _ _) h
    · have hrest : k ∉ keysOf rest := by
        intro hc
        exact h (by rw [keysOf_cons]; exact List.mem_cons_of_mem _ hc)
      rw [if_neg hk, keysOf_cons, keysOf_cons, ih hrest, List.cons_append]

theorem mem_keysOf_setKey {m : List (String × String)} {k kq v : String}
    (h : kq ∈ keysOf (setKey m k v)) : kq ∈ keysOf m ∨ kq = k := by
  by_cases hmem : k ∈ keysOf m
  · rw [keysOf_setKey_mem m v hmem] at h
    exact Or.inl h
  · rw [keysOf_setKey_not_mem m v hmem] at h
    simpa using h

theorem nodup_keysOf_setKey {m : List (String × String)} (k v : String)
    (h : (keysOf m).Nodup) : (keysOf (setKey m k v)).Nodup := by
  by_cases hmem : k ∈ keysOf m
  · rwa [keysOf_setKey_mem m v hmem]
  · rw [keysOf_setKey_not_mem m v hmem]
    simpa [List.nodup_append] using ⟨h, hmem⟩

theorem lookupKey_updateResults_ne (m upd : List (String × String)) {k : String}
    (h : ∀ kv ∈ upd, kv.1 ≠ k) :
    lookupKey (updateResults m upd) k = lookupKey m k := by
  induction upd generalizing m with
  | nil => rfl
  | cons kv rest ih =>
    unfold updateResults at ih ⊢
    rw [List.foldl_cons, ih _ (fun e he => h e (List.mem_cons_of_mem _ he))]
    exact lookupKey_setKey_ne m kv.2 (fun hc => h kv (List.mem_cons_self _ _) hc.symm)

theorem mem_keysOf_updateResults {m upd : List (String × String)} {k : String}
    (h : k ∈ keysOf (updateResults m upd)) : k ∈ keysOf m ∨ k ∈ keysOf upd := by
  induction upd generalizing m with
  | nil => exact Or.inl h
  | cons kv rest ih =>
    unfold updateResults at h ih
    rw [List.foldl_cons] at h
    rcases ih h with hq | hq
    · rcases mem_keysOf_setKey hq with hr | hr
      · exact Or.inl hr
      · exact Or.inr (by rw [keysOf_cons, hr]; exact List.mem_cons_self _ _)
    · exact Or.inr (by rw [keysOf_cons]; exact List.mem_cons_of_mem _ hq)

theorem nodup_keysOf_updateResults (m upd : List (String × String))
    (h : (keysOf m).Nodup) : (keysOf (updateResults m upd)).Nodup := by
  induction upd generalizing m with
  | nil => exact h
  | cons kv rest ih =>
    unfold updateResults at ih ⊢
    rw [List.foldl_cons]
    exact ih _ (nodup_keysOf_setKey _ _ h)

/-- Looking a key up in a mapping with duplicate-free keys is invariant
under permutation (in particular under the final sort). -/
theorem lookupKey_of_perm {l lq : List (String × String)} (h : l.Perm lq)
    (nd : (keysOf l).Nodup) (k : String) : lookupKey l k = lookupKey lq k := by
  induction h with
  | nil => rfl
  | cons x _ ih =>
    rw [lookupKey_cons, lookupKey_cons]
    rw [keysOf_cons, List.nodup_cons] at nd
    rw [ih nd.2]
  | swap x y l =>
    rw [lookupKey_cons, lookupKey_cons, lookupKey_cons, lookupKey_cons]
    by_cases hy : y.1 == k
    · by_cases hx : x.1 == k
      · exfalso
        rw [keysOf_cons, keysOf_cons, List.nodup_cons] at nd
        exact nd.1 (by rw [eq_of_beq hy, eq_of_beq hx]; exact List.mem_cons_self _ _)
      · simp [hy, hx]
    · by_cases hx : x.1 == k <;> simp [hy, hx]
  | trans h1 _ ih1 ih2 =>
    rw [ih1 nd]
    refine ih2 ?_
    exact ((h1.map Prod.fst).nodup_iff).1 nd

theorem geminiLoopResults_eq_updateResults (env : GeminiEnv)
    (cp : List (String × String)) (order : List WorkItem) :
    geminiLoopResults env cp order =
      updateResults cp (order.map (processSingleItemGemini env)) := by
  unfold geminiLoopResults updateResults
  rw [List.foldl_map]

/-! ## Claim C9: finalizer numeric ordering -/

/-- C9: the result finalizer of both scripts
(`OrderedDict(sorted(task_results.items(), key=lambda kv: int(kv[0])))`)
parses each key as an integer and emits the entries in ascending numeric
order — a pure, deterministic transform (it is a function of the
mapping alone); in particular keys 9, 10, 2 come out in the order
2, 9, 10, not lexicographically. -/
theorem c9_finalizer_numeric_sort :
    (∀ m : List (String × String),
        (∀ kv ∈ m, (pyInt kv.1).isSome = true) →
        ∃ out, sortByIntKey m = some out ∧ out.Perm m ∧ List.Sorted intKeyLE out) ∧
    sortByIntKey [("9", "a"), ("10", "b"), ("2", "c")] =
      some [("2", "c"), ("9", "a"), ("10", "b")] := by
  constructor
  · intro m h
    refine ⟨List.insertionSort intKeyLE m, ?_, List.perm_insertionSort intKeyLE m,
      List.sorted_insertionSort intKeyLE m⟩
    unfold sortByIntKey
    rw [if_pos (List.all_eq_true.mpr h)]
  · decide

/-- Witness for C9 at the claim's example input. -/
theorem c9_finalizer_numeric_sort_witness :
    ∃ out, sortByIntKey [("9", "a"), ("10", "b"), ("2", "c")] = some out ∧
      out.Perm [("9", "a"), ("10", "b"), ("2", "c")] ∧ List.Sorted intKeyLE out :=
  c9_finalizer_numeric_sort.1 [("9", "a"), ("10", "b"), ("2", "c")] (by decide)

/-! ## Claim C2: text-pairing precedence -/

/-- C2 counterexample: with both the exact-stem text file `image5.txt`
and the ID-based text file `text5.txt` present next to `image5.jpg`,
the batch script's `find_matching_text_file` returns the ID-based
`text5.txt` — not the exact-stem `image5.txt` that the claim says every
image lookup must prefer. -/
theorem c2_counterexample :
    findMatchingTextFileBatch ["image5.jpg", "image5.txt", "text5.txt"] "image5.jpg" =
        some "text5.txt" ∧
    ¬ findMatchingTextFileBatch ["image5.jpg", "image5.txt", "text5.txt"] "image5.jpg" =
        some "image5.txt" := by
  constructor <;> decide

/-- C2 (amended): the two scripts use opposite precedence.  In
`run_gemini_async.py` an existing exact-stem `.txt` file always wins
(it is tried first); in `run_vlm_batch.py` an existing `text{ID}.txt`
file always wins (the ID-based names are tried before the exact-stem
names), so when both exist the Gemini script returns the exact-stem
file and the batch script the ID-based one. -/
theorem c2_pairing_precedence (fs : List String) (name : String) :
    (fs.contains (splitextStem name ++ ".txt") = true →
      findMatchingTextFileGemini fs name = some (splitextStem name ++ ".txt")) ∧
    (digitsOf (splitextStem name) ≠ [] →
      fs.contains ("text" ++ (⟨digitsOf (splitextStem name)⟩ : String) ++ ".txt") = true →
      findMatchingTextFileBatch fs name =
        some ("text" ++ (⟨digitsOf (splitextStem name)⟩ : String) ++ ".txt")) := by
  constructor
  · intro h
    unfold findMatchingTextFileGemini
    rw [if_pos h]
  · intro hne h
    unfold findMatchingTextFileBatch
    simp only [hne, if_false, firstExisting, List.find?, h]

/-- Witness for C2 (amended) at the claim's example directory. -/
theorem c2_pairing_precedence_witness :
    findMatchingTextFileGemini ["image5.jpg", "image5.txt", "text5.txt"] "image5.jpg" =
      some "image5.txt" ∧
    findMatchingTextFileBatch ["image5.jpg", "image5.txt", "text5.txt"] "image5.jpg" =
      some "text5.txt" := by
  constructor
  · exact (c2_pairing_precedence ["image5.jpg", "image5.txt", "text5.txt"] "image5.jpg").1
      (by decide)
  · exact (c2_pairing_precedence ["image5.jpg", "image5.txt", "text5.txt"] "image5.jpg").2
      (by decide) (by decide)

/-! ## Claim C4: checkpoint write atomicity -/

/-- C4 counterexample: `save_checkpoint` opens the checkpoint file with
mode `w` (truncating it) and writes in place; a crash after the open
and before the write completes leaves the file EMPTY — the previously
written complete checkpoint (`OLD`) is not intact, contradicting the
claimed write-to-temporary-then-rename discipline. -/
theorem c4_counterexample :
    crashAfter (fun p => if p = "checkpoint_task1_En.json" then some "OLD" else none)
        (saveCheckpointOps "checkpoint_task1_En.json" "NEW") 1
        "checkpoint_task1_En.json" = some "" ∧
    ¬ crashAfter (fun p => if p = "checkpoint_task1_En.json" then some "OLD" else none)
        (saveCheckpointOps "checkpoint_task1_En.json" "NEW") 1
        "checkpoint_task1_En.json" = some "OLD" := by
  constructor <;> decide

/-- C4 (amended): saving a checkpoint fully rewrites the checkpoint
file, but by truncating it in place and then writing — there is no
write-to-temporary-then-rename.  A completed save leaves exactly the
new serialised mapping; a crash between the truncating open and the
completed write leaves a truncated (empty) file, not the previous
complete checkpoint. -/
theorem c4_save_in_place (fs : FileSys) (p d : String) :
    runOps fs (saveCheckpointOps p d) p = some d ∧
    crashAfter fs (saveCheckpointOps p d) 1 p = some "" := by
  constructor
  · show applyOp (applyOp fs (FileOp.truncate p)) (FileOp.writeAll p d) p = some d
    simp [applyOp]
  · show applyOp fs (FileOp.truncate p) p = some ""
    simp [applyOp]

/-! ## Claim C5: direct-mode request error capture -/

theorem range_pow_shift (d attempt fuel : Nat) (h : 1 ≤ fuel) :
    d * 2 ^ attempt :: (List.range (fuel - 1)).map (fun i => d * 2 ^ (attempt + 1 + i)) =
      (List.range fuel).map (fun i => d * 2 ^ (attempt + i)) := by
  obtain ⟨f, rfl⟩ : ∃ f, fuel = f + 1 := ⟨fuel - 1, by omega⟩
  rw [List.range_succ_eq_map]
  simp only [Nat.add_sub_cancel, List.map_cons, Nat.add_zero, List.map_map]
  refine congrArg (_ :: ·) ?_
  refine List.map_congr_left (fun i _ => ?_)
  simp only [Function.comp]
  have he : attempt + 1 + i = attempt + (i + 1) := by omega
  rw [he]

/-- If every attempt from `attempt` up to the last one raises, the loop
returns the terminal error string built from the LAST raised message,
sleeping `retryDelay * 2 ^ a` between consecutive attempts. -/
theorem generateLoop_all_error (oracle : Nat → AttemptOutcome) (r d : Nat)
    (msg : Nat → String) :
    ∀ fuel attempt, attempt + fuel = r → 1 ≤ fuel →
    (∀ a, attempt ≤ a → a < r → oracle a = .apiError (msg a)) →
    generateLoop oracle r d attempt fuel =
      (afterAttemptsMsg r (msg (r - 1)),
        (List.range (fuel - 1)).map (fun i => d * 2 ^ (attempt + i))) := by
  intro fuel
  induction fuel with
  | zero => omega
  | succ fuel ih =>
    intro attempt hfuel _
    intro herr
    rw [generateLoop]
    rw [herr attempt (Nat.le_refl _) (by omega)]
    dsimp only
    by_cases hlt : attempt < r - 1
    · rw [if_pos hlt]
      have hfuel1 : 1 ≤ fuel := by omega
      rw [ih (attempt + 1) (by omega) hfuel1
        (fun a ha hb => herr a (by omega) hb)]
      simp only [Nat.add_sub_cancel]
      refine Prod.ext rfl ?_
      simp only
      rw [range_pow_shift d attempt fuel hfuel1]
    · rw [if_neg hlt]
      have hat : attempt = r - 1 := by omega
      have hf0 : fuel = 0 := by omega
      subst hf0
      rw [hat]
      rfl

/-- If the attempts before `k` all raise and attempt `k` comes back with
no content, the loop stops at attempt `k` with the no-content error
string, with the backoff delays of the earlier failed attempts. -/
theorem generateLoop_noContent (oracle : Nat → AttemptOutcome) (r d : Nat)
    (fr sr : String) (k : Nat) (hkr : k < r) :
    ∀ fuel attempt, attempt + fuel = r → attempt ≤ k →
    (∀ a, attempt ≤ a → a < k → ∃ m, oracle a = .apiError m) →
    oracle k = .noContent fr sr →
    generateLoop oracle r d attempt fuel =
      (noContentMsg fr sr,
        (List.range (k - attempt)).map (fun i => d * 2 ^ (attempt + i))) := by
  intro fuel
  induction fuel with
  | zero => omega
  | succ fuel ih =>
    intro attempt hfuel hak herr hnc
    rw [generateLoop]
    by_cases hattk : attempt = k
    · subst hattk
      rw [hnc, Nat.sub_self]
      dsimp only
      rfl
    · have hlt : attempt < k := by omega
      obtain ⟨m, hm⟩ := herr attempt (Nat.le_refl _) hlt
      rw [hm]
      dsimp only
      rw [if_pos (by omega : attempt < r - 1)]
      rw [ih (attempt + 1) (by omega) (by omega)
        (fun a ha hb => herr a (by omega) hb) hnc]
      refine Prod.ext rfl ?_
      simp only
      have hk1 : k - (attempt + 1) = (k - attempt) - 1 := by omega
      rw [hk1, range_pow_shift d attempt (k - attempt) (by omega)]

/-- C5: `generate_gemini_response` never propagates an exception — it is
a total function into result strings (its type in this embedding).  If
all `R` attempts raise, the attempts are separated by backoff delays
`retryDelay * 2 ^ attempt` for attempts `0 .. R-2` and the result is
the terminal `Error: After R attempts - ...` string; if an attempt
returns a response with no content after `k` failed attempts, the
no-content error string (encoding the provider's finish reason and
safety ratings) is returned at once, with no further attempts and no
further delays. -/
theorem c5_request_error_capture (oracle : Nat → AttemptOutcome) (r d : Nat)
    (hr : 1 ≤ r) :
    (∀ msg : Nat → String, (∀ a, a < r → oracle a = .apiError (msg a)) →
      generateGeminiResponse oracle r d =
        (afterAttemptsMsg r (msg (r - 1)),
          (List.range (r - 1)).map (fun a => d * 2 ^ a))) ∧
    (∀ k, k < r → (∀ a, a < k → ∃ m, oracle a = .apiError m) →
      ∀ fr sr, oracle k = .noContent fr sr →
      generateGeminiResponse oracle r d =
        (noContentMsg fr sr, (List.range k).map (fun a => d * 2 ^ a))) := by
  constructor
  · intro msg hmsg
    unfold generateGeminiResponse
    rw [generateLoop_all_error oracle r d msg r 0 (by omega) hr
      (fun a _ hb => hmsg a hb)]
    simp
  · intro k hk herr fr sr hnc
    unfold generateGeminiResponse
    rw [generateLoop_noContent oracle r d fr sr k hk r 0 (by omega) (by omega)
      (fun a _ hb => herr a hb) hnc]
    simp

/-- Witness for C5 with the configured defaults (3 attempts, base delay
5s): three raised attempts give the terminal error string with delays
5s and 10s; a first-attempt safety block returns its error string with
no delays. -/
theorem c5_request_error_capture_witness :
    generateGeminiResponse (fun _ => .apiError "boom") defaultRetryAttempts
        defaultRetryDelay = (afterAttemptsMsg 3 "boom", [5, 10]) ∧
    generateGeminiResponse (fun _ => .noContent "SAFETY" "[]") defaultRetryAttempts
        defaultRetryDelay = (noContentMsg "SAFETY" "[]", []) := by
  constructor
  · have h := (c5_request_error_capture (fun _ => .apiError "boom") 3 5
      (by omega)).1 (fun _ => "boom") (fun a _ => rfl)
    simpa using h
  · have h := (c5_request_error_capture (fun _ => .noContent "SAFETY" "[]") 3 5
      (by omega)).2 0 (by omega) (fun a ha => absurd ha (Nat.not_lt_zero a))
      "SAFETY" "[]" rfl
    simpa using h

/-! ## Claim C7: ID extraction — path lemmas -/

theorem string_data_append (s t : String) : (s ++ t).data = s.data ++ t.data := rfl

theorem takeWhile_of_all {α : Type} (p : α → Bool) :
    ∀ xs : List α, (∀ x ∈ xs, p x = true) → xs.takeWhile p = xs
  | [], _ => rfl
  | x :: xs, h => by
    rw [List.takeWhile_cons, h x (List.mem_cons_self _ _)]
    simp only [if_true]
    rw [takeWhile_of_all p xs (fun y hy => h y (List.mem_cons_of_mem _ hy))]

theorem dropWhile_append_stop {α : Type} (p : α → Bool) :
    ∀ (xs : List α) (y : α) (ys : List α), (∀ x ∈ xs, p x = true) → p y = false →
      (xs ++ y :: ys).dropWhile p = y :: ys
  | [], y, ys, _, hy => by
    rw [List.nil_append, List.dropWhile_cons, hy]
    simp
  | x :: xs, y, ys, hxs, hy => by
    rw [List.cons_append, List.dropWhile_cons, hxs x (List.mem_cons_self _ _)]
    simp only [if_true]
    exact dropWhile_append_stop p xs y ys
      (fun z hz => hxs z (List.mem_cons_of_mem _ hz)) hy

theorem basename_of_no_slash {s : String} (h : ∀ c ∈ s.data, c ≠ '/') :
    basename s = s := by
  unfold basename
  rw [takeWhile_of_all _ _ (fun c hc => by
    simpa using h c (List.mem_reverse.mp hc))]
  rw [List.reverse_reverse]

theorem splitextStem_append {pre D ext : String} (hDne : D.data ≠ [])
    (hDdot : ∀ c ∈ D.data, c ≠ '.') (hext : ∀ c ∈ ext.data, c ≠ '.') :
    splitextStem (pre ++ D ++ "." ++ ext) = pre ++ D := by
  have hdata : (pre ++ D ++ "." ++ ext).data =
      (pre.data ++ D.data) ++ '.' :: ext.data := by
    rw [string_data_append, string_data_append, string_data_append]
    simp
  unfold splitextStem
  rw [hdata, List.reverse_append]
  have hrev : ('.' :: ext.data).reverse = ext.data.reverse ++ ['.'] := by
    simp
  rw [hrev, List.append_assoc, List.singleton_append]
  rw [dropWhile_append_stop _ _ _ _
    (fun c hc => by simpa using hext c (List.mem_reverse.mp hc)) (by simp)]
  dsimp only
  rw [if_pos]
  · rw [List.reverse_reverse]
    rfl
  · obtain ⟨c, hc⟩ := List.exists_mem_of_ne_nil _ hDne
    refine List.any_eq_true.mpr ⟨c, ?_, by simpa using hDdot c hc⟩
    rw [List.mem_reverse]
    exact List.mem_append_right _ hc

theorem digitsOf_append_pre {pre D : String}
    (hpre : ∀ c ∈ pre.data, c.isDigit = false)
    (hD : ∀ c ∈ D.data, c.isDigit = true) :
    digitsOf (pre ++ D) = D.data := by
  unfold digitsOf
  rw [string_data_append, List.filter_append]
  rw [List.filter_eq_nil_iff.mpr (fun c hc => by simp [hpre c hc])]
  rw [List.filter_eq_self.mpr (fun c hc => hD c hc), List.nil_append]

theorem ne_dot_of_isDigit {c : Char} (h : c.isDigit = true) : c ≠ '.' := by
  intro hc
  subst hc
  exact absurd h (by decide)

theorem ne_slash_of_isDigit {c : Char} (h : c.isDigit = true) : c ≠ '/' := by
  intro hc
  subst hc
  exact absurd h (by decide)

/-- Every entry collected by the deduplication pass of
`load_images_and_texts` carries the ID its path actually parses to; in
particular no path whose ID extraction fails ever enters the list. -/
theorem uniqueImagesById_sound (paths : List String) :
    ∀ e ∈ uniqueImagesById paths, getImageId e.2 = some e.1 := by
  unfold uniqueImagesById
  suffices hgen : ∀ (ps : List String) (acc : List (Nat × String)),
      (∀ e ∈ acc, getImageId e.2 = some e.1) →
      ∀ e ∈ ps.foldl (fun acc p =>
        match getImageId p with
        | none => acc
        | some i => if acc.any (fun e => e.1 == i) then acc else acc ++ [(i, p)]) acc,
        getImageId e.2 = some e.1 by
    exact hgen paths [] (by intro e he; cases he)
  intro ps
  induction ps with
  | nil => intro acc hacc e he; exact hacc e he
  | cons p rest ih =>
    intro acc hacc e he
    rw [List.foldl_cons] at he
    refine ih _ ?_ e he
    intro f hf
    cases hid : getImageId p with
    | none =>
      rw [hid] at hf
      exact hacc f hf
    | some i =>
      rw [hid] at hf
      dsimp only at hf
      by_cases hany : acc.any (fun e => e.1 == i)
      · rw [if_pos hany] at hf
        exact hacc f hf
      · rw [if_neg hany] at hf
        rcases List.mem_append.mp hf with hfa | hfn
        · exact hacc f hfa
        · rcases List.mem_singleton.mp hfn with rfl
          exact hid

/-- An item kept by the `remaining_items` filter has a parsable ID whose
string form is not among the processed keys. -/
theorem mem_remainingItemsGemini {processed : List String} {items : List WorkItem}
    {it : WorkItem} (h : it ∈ remainingItemsGemini processed items) :
    ∃ n, getImageIdFromPath it.imagePath = some n ∧
      processed.contains (natToKey n) = false := by
  unfold remainingItemsGemini at h
  rw [List.mem_filter] at h
  obtain ⟨_, hcond⟩ := h
  cases hid : getImageIdFromPath it.imagePath with
  | none => rw [hid] at hcond; simp at hcond
  | some n =>
    rw [hid] at hcond
    refine ⟨n, rfl, ?_⟩
    simpa using hcond

/-! ## Claim C7: ID extraction -/

/-- C7: for every filename of the shape `pre ++ D ++ "." ++ ext` whose
stem has digit characters exactly `D` (the stem's digit concatenation),
both scripts' ID extraction returns `int(D)`; for any filename whose
stem has no digits, extraction fails (`None` in the Gemini script, a
caught `ValueError` in the batch script), the file is excluded from
further processing — the Gemini dispatch filter never selects it and
the batch loader's deduplication pass never admits it — and, the
embedding being total, no extraction failure crashes a loader. -/
theorem c7_id_extraction :
    (∀ pre D ext : String,
        (∀ c ∈ pre.data, c.isDigit = false) →
        D.data ≠ [] →
        (∀ c ∈ D.data, c.isDigit = true) →
        (∀ c ∈ pre.data, c ≠ '/') →
        (∀ c ∈ ext.data, c ≠ '.' ∧ c ≠ '/') →
        getImageIdFromPath (pre ++ D ++ "." ++ ext) = pyInt D ∧
        getImageId (pre ++ D ++ "." ++ ext) = pyInt D) ∧
    (∀ name : String, digitsOf (splitextStem (basename name)) = [] →
        getImageIdFromPath name = none ∧
        getImageId name = none ∧
        (∀ (processed : List String) (items : List WorkItem) (tp : Option String),
          (⟨name, tp⟩ : WorkItem) ∉ remainingItemsGemini processed items) ∧
        (∀ paths : List String, ∀ e ∈ uniqueImagesById paths, e.2 ≠ name)) := by
  constructor
  · intro pre D ext hpre hDne hD hpreSlash hext
    have hslash : ∀ c ∈ (pre ++ D ++ "." ++ ext).data, c ≠ '/' := by
      intro c hc
      have : (pre ++ D ++ "." ++ ext).data =
          pre.data ++ D.data ++ '.' :: ext.data := by
        rw [string_data_append, string_data_append, string_data_append]
        simp
      rw [this] at hc
      rcases List.mem_append.mp hc with hc1 | hc2
      · rcases List.mem_append.mp hc1 with hc3 | hc4
        · exact hpreSlash c hc3
        · exact ne_slash_of_isDigit (hD c hc4)
      · rcases List.mem_cons.mp hc2 with rfl | hc5
        · decide
        · exact (hext c hc5).2
    have hbase : basename (pre ++ D ++ "." ++ ext) = pre ++ D ++ "." ++ ext :=
      basename_of_no_slash hslash
    have hstem : splitextStem (pre ++ D ++ "." ++ ext) = pre ++ D :=
      splitextStem_append (by simpa using hDne)
        (fun c hc => ne_dot_of_isDigit (hD c hc)) (fun c hc => (hext c hc).1)
    have hdig : digitsOf (pre ++ D) = D.data := digitsOf_append_pre hpre hD
    have hPy : pyInt D = some (digitsToNat D.data) := by
      unfold pyInt
      rw [if_pos ⟨hDne, List.all_eq_true.mpr hD⟩]
    constructor
    · simp only [getImageIdFromPath]
      rw [hbase, hstem, hdig, if_neg hDne, hPy]
    · simp only [getImageId]
      rw [hbase, hstem, hdig, if_neg hDne, hPy]
  · intro name hnodig
    have hg : getImageIdFromPath name = none := by
      simp only [getImageIdFromPath]
      rw [hnodig, if_pos rfl]
    have hb : getImageId name = none := by
      simp only [getImageId]
      rw [hnodig, if_pos rfl]
    refine ⟨hg, hb, ?_, ?_⟩
    · intro processed items tp hmem
      obtain ⟨n, hn, _⟩ := mem_remainingItemsGemini hmem
      rw [hg] at hn
      cases hn
    · intro paths e he hc
      have := uniqueImagesById_sound paths e he
      rw [hc, hb] at this
      cases this

/-- Witness for C7: `image123.jpg` parses to ID 123 in both scripts,
and `cover.jpg` (no digits) is rejected by both and excluded from the
Gemini dispatch filter and the batch deduplication pass. -/
theorem c7_id_extraction_witness :
    (getImageIdFromPath ("image" ++ "123" ++ "." ++ "jpg") = pyInt "123" ∧
      getImageId ("image" ++ "123" ++ "." ++ "jpg") = pyInt "123") ∧
    (getImageIdFromPath "cover.jpg" = none ∧
      getImageId "cover.jpg" = none ∧
      (∀ (processed : List String) (items : List WorkItem) (tp : Option String),
        (⟨"cover.jpg", tp⟩ : WorkItem) ∉ remainingItemsGemini processed items) ∧
      (∀ paths : List String, ∀ e ∈ uniqueImagesById paths, e.2 ≠ "cover.jpg")) := by
  constructor
  · exact c7_id_extraction.1 "image" "123" "jpg" (by decide) (by decide) (by decide)
      (by decide) (by decide)
  · exact c7_id_extraction.2 "cover.jpg" (by decide)

/-! ## Claim C3: checkpoint key invariant -/

/-- Whatever the local I/O and model outcomes, the key under which a
dispatched item's result is stored is the decimal form of its parsed ID. -/
theorem processSingleItemGemini_key (env : GeminiEnv) (it : WorkItem) {n : Nat}
    (hid : getImageIdFromPath it.imagePath = some n) :
    (processSingleItemGemini env it).1 = natToKey n := by
  unfold processSingleItemGemini
  rw [hid]
  dsimp only
  by_cases h1 : strFalsy (env.encodeImage it.imagePath) = true
  · rw [if_pos h1]
  · rw [if_neg h1]
    cases htp : it.textPath with
    | none => rfl
    | some tp =>
      dsimp only
      cases h2 : env.readTextFile tp <;> rfl

/-- Every key that batch-result reconciliation produces is the decimal
form of an ID found in the chunk's correlation map. -/
theorem key_mem_processBatchResults {lines : List BatchLine}
    {idMap : List (String × Nat)} {k : String}
    (h : k ∈ keysOf (processBatchResults lines idMap)) :
    ∃ i, i ∈ idMap.map Prod.snd ∧ k = natToKey i := by
  unfold processBatchResults at h
  suffices hgen : ∀ (ls : List BatchLine) (acc : List (String × String)),
      (∀ kq ∈ keysOf acc, ∃ i, i ∈ idMap.map Prod.snd ∧ kq = natToKey i) →
      ∀ kq ∈ keysOf (ls.foldl (foldBatchLine idMap) acc),
        ∃ i, i ∈ idMap.map Prod.snd ∧ kq = natToKey i by
    exact hgen lines [] (by intro kq hkq; cases hkq) k h
  intro ls
  induction ls with
  | nil => intro acc hacc kq hkq; exact hacc kq hkq
  | cons line rest ih =>
    intro acc hacc kq hkq
    rw [List.foldl_cons] at hkq
    refine ih _ ?_ kq hkq
    intro kr hkr
    cases line with
    | malformed => exact hacc kr hkr
    | parsed cid body =>
      simp only [foldBatchLine] at hkr
      cases hlook : lookupIdMap idMap cid with
      | none =>
        rw [hlook] at hkr
        exact hacc kr hkr
      | some i =>
        rw [hlook] at hkr
        dsimp only at hkr
        have himem : i ∈ idMap.map Prod.snd := by
          unfold lookupIdMap at hlook
          cases hfind : idMap.find? (fun e => e.1 == cid) with
          | none => rw [hfind] at hlook; cases hlook
          | some e =>
            rw [hfind] at hlook
            have he : e ∈ idMap := List.mem_of_find?_eq_some hfind
            have he2 : e.2 = i := by simpa using hlook
            rw [← he2]
            exact List.mem_map_of_mem Prod.snd he
        cases body with
        | okContent c =>
          rcases mem_keysOf_setKey hkr with hk1 | hk2
          · exact hacc kr hk1
          · exact ⟨i, himem, hk2⟩
        | okNoChoices =>
          rcases mem_keysOf_setKey hkr with hk1 | hk2
          · exact hacc kr hk1
          · exact ⟨i, himem, hk2⟩
        | err sc msg =>
          rcases mem_keysOf_setKey hkr with hk1 | hk2
          · exact hacc kr hk1
          · exact ⟨i, himem, hk2⟩

/-- C3: every key inserted into a (language, task) result mapping — by
the direct-mode dispatch loop (which only processes items surviving the
`remaining_items` filter) or by batch-result reconciliation — is the
decimal string of a non-negative integer, and parsing it back with
`int` (the final sort key) succeeds. -/
theorem c3_checkpoint_key_invariant :
    (∀ (env : GeminiEnv) (cp : List (String × String)) (items order : List WorkItem),
        order.Perm (remainingItemsGemini (keysOf cp) items) →
        ∀ it ∈ order, ∃ n : Nat,
          (processSingleItemGemini env it).1 = natToKey n ∧
          pyInt (processSingleItemGemini env it).1 = some n) ∧
    (∀ (lines : List BatchLine) (idMap : List (String × Nat)),
        ∀ k ∈ keysOf (processBatchResults lines idMap),
          ∃ n : Nat, k = natToKey n ∧ pyInt k = some n) := by
  constructor
  · intro env cp items order hperm it hit
    have hmem := hperm.mem_iff.mp hit
    obtain ⟨n, hn, _⟩ := mem_remainingItemsGemini hmem
    refine ⟨n, processSingleItemGemini_key env it hn, ?_⟩
    rw [processSingleItemGemini_key env it hn, pyInt_natToKey]
  · intro lines idMap k hk
    obtain ⟨i, _, hki⟩ := key_mem_processBatchResults hk
    exact ⟨i, hki, by rw [hki, pyInt_natToKey]⟩

/-- Environment used by the concrete witnesses: everything succeeds. -/
def allOkGeminiEnv : GeminiEnv :=
  { encodeImage := fun _ => some "IMGDATA",
    readTextFile := fun _ => some "TXTDATA",
    respond := fun _ => "model answer" }

/-- Witness for C3: a dispatched `image7.jpg` is stored under key `7`,
and a reconciled batch line for correlation ID `cid` mapping to item 7
is stored under key `7`; both keys parse back with `int`. -/
theorem c3_checkpoint_key_invariant_witness :
    (∃ n : Nat,
        (processSingleItemGemini allOkGeminiEnv ⟨"image7.jpg", none⟩).1 = natToKey n ∧
        pyInt (processSingleItemGemini allOkGeminiEnv ⟨"image7.jpg", none⟩).1 = some n) ∧
    (∃ n : Nat, "7" = natToKey n ∧ pyInt "7" = some n) := by
  constructor
  · refine c3_checkpoint_key_invariant.1 allOkGeminiEnv [] [⟨"image7.jpg", none⟩]
      [⟨"image7.jpg", none⟩] ?_ ⟨"image7.jpg", none⟩ (by decide)
    have h : remainingItemsGemini (keysOf []) [⟨"image7.jpg", none⟩] =
        [⟨"image7.jpg", none⟩] := by decide
    rw [h]
  · exact c3_checkpoint_key_invariant.2
      [.parsed "cid" (.okContent "hello")] [("cid", 7)] "7" (by decide)

/-! ## Claim C6: chunk-level retry atomicity -/

/-- Every `create_batch_job` call the chunk retry loop makes is given
the chunk's one uploaded input-artifact file ID. -/
theorem chunkLoopAux_subs (oracle : Nat → IterOutcome) (fileId : String)
    (idMap : List (String × Nat)) :
    ∀ (fuel retries : Nat) (tr : List (String × String)) (subs : List String),
      (∀ s ∈ subs, s = fileId) →
      ∀ s ∈ (chunkLoopAux oracle fileId idMap tr subs retries fuel).submissions,
        s = fileId := by
  intro fuel
  induction fuel with
  | zero => intro retries tr subs hsubs s hs; exact hsubs s hs
  | succ fuel ih =>
    intro retries tr subs hsubs s hs
    rw [chunkLoopAux] at hs
    have hsubs2 : ∀ x ∈ subs ++ [fileId], x = fileId := by
      intro x hx
      rcases List.mem_append.mp hx with h1 | h2
      · exact hsubs x h1
      · simpa using h2
    cases h : oracle retries <;>
      (rw [h] at hs
       dsimp only at hs
       first
       | exact hsubs2 s hs
       | exact ih (retries + 1) tr (subs ++ [fileId]) hsubs2 s hs)

/-- The retry loop makes at most one `create_batch_job` call per unit
of fuel. -/
theorem chunkLoopAux_subs_length (oracle : Nat → IterOutcome) (fileId : String)
    (idMap : List (String × Nat)) :
    ∀ (fuel retries : Nat) (tr : List (String × String)) (subs : List String),
      (chunkLoopAux oracle fileId idMap tr subs retries fuel).submissions.length ≤
        subs.length + fuel := by
  intro fuel
  induction fuel with
  | zero => intro retries tr subs; simp [chunkLoopAux]
  | succ fuel ih =>
    intro retries tr subs
    rw [chunkLoopAux]
    cases h : oracle retries <;>
      (dsimp only
       first
       | simp
       | · refine le_trans (ih (retries + 1) tr (subs ++ [fileId])) ?_
           simp
           omega)

/-- If no attempt ever reaches `completed`-with-output, the loop leaves
`task_results` untouched and reports failure. -/
theorem chunkLoopAux_no_success (oracle : Nat → IterOutcome) (fileId : String)
    (idMap : List (String × Nat))
    (hno : ∀ j lines, oracle j ≠ .completedOk lines) :
    ∀ (fuel retries : Nat) (tr : List (String × String)) (subs : List String),
      (chunkLoopAux oracle fileId idMap tr subs retries fuel).results = tr ∧
      (chunkLoopAux oracle fileId idMap tr subs retries fuel).succeeded = false := by
  intro fuel
  induction fuel with
  | zero => intro retries tr subs; exact ⟨rfl, rfl⟩
  | succ fuel ih =>
    intro retries tr subs
    rw [chunkLoopAux]
    cases h : oracle retries with
    | completedOk lines => exact absurd h (hno retries lines)
    | createFail => exact ih (retries + 1) tr (subs ++ [fileId])
    | pollNone => exact ih (retries + 1) tr (subs ++ [fileId])
    | completedNoOutput => exact ih (retries + 1) tr (subs ++ [fileId])
    | terminalFailed => exact ih (retries + 1) tr (subs ++ [fileId])
    | unexpectedStatus => exact ih (retries + 1) tr (subs ++ [fileId])

/-- C6: when a chunk's job terminates failed/cancelled/expired (or
completed without an output artifact), the whole chunk is resubmitted:
every `create_batch_job` call in the retry loop reuses the one uploaded
input artifact `fileId` — hence each retried submission carries exactly
`requestCount fileId` requests, the original chunk's size — at most
`maxRetries + 1` submissions are made, and if no attempt ever succeeds
the chunk is abandoned with `task_results` exactly as it was (no
checkpointed result is removed) and no success reported. -/
theorem c6_chunk_retry_atomicity (oracle : Nat → IterOutcome) (fileId : String)
    (idMap : List (String × Nat)) (maxRetries : Nat)
    (taskResults : List (String × String)) (requestCount : String → Nat) :
    (∀ s ∈ (chunkRetryLoop oracle fileId idMap maxRetries taskResults).submissions,
        s = fileId ∧ requestCount s = requestCount fileId) ∧
    (chunkRetryLoop oracle fileId idMap maxRetries taskResults).submissions.length ≤
      maxRetries + 1 ∧
    ((∀ j lines, oracle j ≠ .completedOk lines) →
      (chunkRetryLoop oracle fileId idMap maxRetries taskResults).results =
          taskResults ∧
      (chunkRetryLoop oracle fileId idMap maxRetries taskResults).succeeded =
          false) := by
  refine ⟨?_, ?_, ?_⟩
  · intro s hs
    have heq := chunkLoopAux_subs oracle fileId idMap (maxRetries + 1) 0 taskResults []
      (by intro x hx; cases hx) s hs
    exact ⟨heq, by rw [heq]⟩
  · have := chunkLoopAux_subs_length oracle fileId idMap (maxRetries + 1) 0 taskResults []
    simpa using this
  · intro hno
    exact chunkLoopAux_no_success oracle fileId idMap hno (maxRetries + 1) 0
      taskResults []

/-- Witness for C6: an always-failing chunk with `max_retries = 3`
makes submissions only with its own file ID, at most 4 of them, and
leaves the checkpointed result mapping untouched. -/
theorem c6_chunk_retry_atomicity_witness :
    ("file-1" = "file-1" ∧
      (fun _ : String => (200 : Nat)) "file-1" =
        (fun _ : String => (200 : Nat)) "file-1") ∧
    (chunkRetryLoop (fun _ => .terminalFailed) "file-1" [("cid", 7)] 3
        [("1", "a")]).submissions.length ≤ 3 + 1 ∧
    ((chunkRetryLoop (fun _ => .terminalFailed) "file-1" [("cid", 7)] 3
        [("1", "a")]).results = [("1", "a")] ∧
      (chunkRetryLoop (fun _ => .terminalFailed) "file-1" [("cid", 7)] 3
        [("1", "a")]).succeeded = false) := by
  have h := c6_chunk_retry_atomicity (fun _ => .terminalFailed) "file-1" [("cid", 7)]
    3 [("1", "a")] (fun _ => 200)
  exact ⟨h.1 "file-1" (by decide), h.2.1,
    h.2.2 (fun j lines hc => IterOutcome.noConfusion hc)⟩

/-! ## Claim C8: local I/O error isolation -/

/-- If every binding of `k` in the update list carries the value `v`
and at least one binding of `k` occurs, the merged mapping maps `k` to
`v` — one item's result reaches the mapping whatever the other items'
results were. -/
theorem lookupKey_updateResults_writer (m : List (String × String)) :
    ∀ (upd : List (String × String)) (k v : String),
      (∀ kv ∈ upd, kv.1 = k → kv.2 = v) →
      (∃ kv ∈ upd, kv.1 = k) →
      lookupKey (updateResults m upd) k = some v := by
  intro upd
  induction upd generalizing m with
  | nil =>
    intro k v _ hex
    rcases hex with ⟨kv, hmem, _⟩
    cases hmem
  | cons kv rest ih =>
    intro k v hall hex
    unfold updateResults at ih ⊢
    rw [List.foldl_cons]
    by_cases hrest : ∃ kv2 ∈ rest, kv2.1 = k
    · exact ih _ k v (fun e he hk => hall e (List.mem_cons_of_mem _ he) hk) hrest
    · have hkvk : kv.1 = k := by
        rcases hex with ⟨e, he, hek⟩
        rcases List.mem_cons.mp he with rfl | hmemr
        · exact hek
        · exact absurd ⟨e, hmemr, hek⟩ hrest
      have hkvv : kv.2 = v := hall kv (List.mem_cons_self _ _) hkvk
      have hwrite : lookupKey (setKey m kv.1 kv.2) k = some v := by
        rw [hkvk, hkvv]
        exact lookupKey_setKey_self m k v
      have hpres := lookupKey_updateResults_ne (setKey m kv.1 kv.2) rest
        (fun e he hk => hrest ⟨e, he, hk⟩)
      unfold updateResults at hpres
      rw [hpres]
      exact hwrite

/-- Request lines already prepared survive the rest of the
`prepare_batch_file_image_text` loop. -/
theorem prep_lines_mono (env : BatchEnv) (stamp : Nat → Nat) :
    ∀ (pairs : List (String × String))
      (st : List BatchEntry × List (String × Nat) × Nat) (e : BatchEntry),
      e ∈ st.1 → e ∈ (pairs.foldl (prepPairStep env stamp) st).1 := by
  intro pairs
  induction pairs with
  | nil => intro st e he; exact he
  | cons pr rest ih =>
    intro st e he
    rw [List.foldl_cons]
    refine ih _ e ?_
    obtain ⟨lines, idMap, idx⟩ := st
    unfold prepPairStep
    dsimp only
    cases hid : getImageId (basename pr.1) with
    | none => exact he
    | some i =>
      dsimp only
      by_cases henc : strFalsy (env.encodeImage pr.1) = true
      · rw [if_pos henc]; exact he
      · rw [if_neg henc]
        cases htext : env.readTextFile pr.2 with
        | none => exact he
        | some t => exact List.mem_append_left _ he

/-- Every request line the preparation loop emits comes from a pair
whose ID parsed, whose image encoded, and whose text was readable —
failing pairs contribute nothing. -/
theorem prep_mem_lines (env : BatchEnv) (stamp : Nat → Nat) :
    ∀ (pairs : List (String × String))
      (st : List BatchEntry × List (String × Nat) × Nat) (e : BatchEntry),
      e ∈ (pairs.foldl (prepPairStep env stamp) st).1 →
      e ∈ st.1 ∨ ∃ pr ∈ pairs, ∃ i, getImageId (basename pr.1) = some i ∧
        strFalsy (env.encodeImage pr.1) = false ∧ env.readTextFile pr.2 ≠ none ∧
        e.itemId = i := by
  intro pairs
  induction pairs with
  | nil => intro st e he; exact Or.inl he
  | cons pr rest ih =>
    intro st e he
    rw [List.foldl_cons] at he
    rcases ih _ e he with hst | ⟨pr2, hpr2, i, hi, henc, htext, hid⟩
    · obtain ⟨lines, idMap, idx⟩ := st
      revert hst
      unfold prepPairStep
      dsimp only
      cases hid : getImageId (basename pr.1) with
      | none => intro hst; exact Or.inl hst
      | some i =>
        dsimp only
        by_cases henc : strFalsy (env.encodeImage pr.1) = true
        · rw [if_pos henc]; intro hst; exact Or.inl hst
        · rw [if_neg henc]
          cases htext : env.readTextFile pr.2 with
          | none => intro hst; exact Or.inl hst
          | some t =>
            intro hst
            rcases List.mem_append.mp hst with h1 | h2
            · exact Or.inl h1
            · rcases List.mem_singleton.mp h2 with rfl
              refine Or.inr ⟨pr, List.mem_cons_self _ _, i, hid, ?_, ?_, rfl⟩
              · simpa using henc
              · rw [htext]; exact fun hc => Option.noConfusion hc
    · exact Or.inr ⟨pr2, List.mem_cons_of_mem _ hpr2, i, hi, henc, htext, hid⟩

/-- A pair whose ID parses, whose image encodes and whose text reads
always gets a request line with its ID. -/
theorem prep_healthy_mem (env : BatchEnv) (stamp : Nat → Nat) :
    ∀ (pairs : List (String × String))
      (st : List BatchEntry × List (String × Nat) × Nat) (pr : String × String),
      pr ∈ pairs → ∀ i, getImageId (basename pr.1) = some i →
      strFalsy (env.encodeImage pr.1) = false → env.readTextFile pr.2 ≠ none →
      ∃ e ∈ (pairs.foldl (prepPairStep env stamp) st).1, e.itemId = i := by
  intro pairs
  induction pairs with
  | nil => intro st pr hpr; cases hpr
  | cons prh rest ih =>
    intro st pr hpr i hi henc htext
    rcases List.mem_cons.mp hpr with rfl | hmem
    · rw [List.foldl_cons]
      obtain ⟨lines, idMap, idx⟩ := st
      cases htx : env.readTextFile pr.2 with
      | none => exact absurd htx htext
      | some t =>
        refine ⟨⟨"pair_" ++ natToKey i ++ "_" ++ natToKey (stamp idx), i⟩, ?_, rfl⟩
        refine prep_lines_mono env stamp rest _ _ ?_
        unfold prepPairStep
        dsimp only
        rw [hi]
        dsimp only
        rw [if_neg (by simp [henc]), htx]
        exact List.mem_append_right _ (List.mem_singleton.mpr rfl)
    · rw [List.foldl_cons]
      exact ih _ pr hmem i hi henc htext

/-- Batch environment in which no image can be encoded. -/
def encodeFailBatchEnv : BatchEnv :=
  { encodeImage := fun _ => none, readTextFile := fun _ => some "TXTDATA" }

/-- C8 counterexample: in batch mode an item whose image fails to
encode is SKIPPED, not recorded.  With the single pair
`image5.jpg`/`text5.txt` and a failing encoder, the whole chunk is
skipped (no request lines were produced), the run's result mapping
stays empty, and in particular no `Error: ...` string is recorded under
key `5` — contradicting the claim that every encode failure is recorded
as that item's error result. -/
theorem c8_counterexample :
    runBatchChunkImageText encodeFailBatchEnv (fun _ => 0) (some "file-1")
        (fun _ => .terminalFailed) 3 [("image5.jpg", "text5.txt")] [] = [] ∧
    lookupKey (runBatchChunkImageText encodeFailBatchEnv (fun _ => 0) (some "file-1")
        (fun _ => .terminalFailed) 3 [("image5.jpg", "text5.txt")] []) "5" = none := by
  constructor <;> decide

/-- C8 (amended): in DIRECT mode a work item whose image cannot be
encoded, or whose text file cannot be read, has exactly the
corresponding `Error: ...` string recorded under its own key, and every
dispatched item whose key is written only with its own result still
receives that result in the merged mapping — failures are isolated per
item.  In BATCH mode such an item is instead silently dropped from the
chunk submission (no request line carries its ID, so no result — not
even an error string — is recorded for it this run), while pairs whose
I/O succeeds still get their request lines. -/
theorem c8_local_io_error_isolation :
    (∀ (env : GeminiEnv) (it : WorkItem) (n : Nat),
        getImageIdFromPath it.imagePath = some n →
        (strFalsy (env.encodeImage it.imagePath) = true →
          processSingleItemGemini env it =
            (natToKey n, "Error: Image encoding failed")) ∧
        (∀ tp, strFalsy (env.encodeImage it.imagePath) = false →
          it.textPath = some tp → env.readTextFile tp = none →
          processSingleItemGemini env it =
            (natToKey n, "Error: Could not read text file"))) ∧
    (∀ (env : GeminiEnv) (cp : List (String × String)) (order : List WorkItem),
        ∀ it ∈ order,
          (∀ it2 ∈ order, (processSingleItemGemini env it2).1 =
              (processSingleItemGemini env it).1 →
            (processSingleItemGemini env it2).2 =
              (processSingleItemGemini env it).2) →
          lookupKey (geminiLoopResults env cp order)
              (processSingleItemGemini env it).1 =
            some (processSingleItemGemini env it).2) ∧
    (∀ (env : BatchEnv) (stamp : Nat → Nat) (pairs : List (String × String)),
        (∀ pr ∈ pairs, ∀ i, getImageId (basename pr.1) = some i →
          (strFalsy (env.encodeImage pr.1) = true ∨ env.readTextFile pr.2 = none) →
          (∀ pr2 ∈ pairs, getImageId (basename pr2.1) = some i → pr2 = pr) →
          ∀ e ∈ (prepareBatchFileImageText env stamp pairs).1, e.itemId ≠ i) ∧
        (∀ pr ∈ pairs, ∀ i, getImageId (basename pr.1) = some i →
          strFalsy (env.encodeImage pr.1) = false → env.readTextFile pr.2 ≠ none →
          ∃ e ∈ (prepareBatchFileImageText env stamp pairs).1, e.itemId = i)) := by
  refine ⟨?_, ?_, ?_⟩
  · intro env it n hid
    constructor
    · intro henc
      unfold processSingleItemGemini
      rw [hid]
      dsimp only
      rw [if_pos henc]
    · intro tp henc htp hread
      unfold processSingleItemGemini
      rw [hid]
      dsimp only
      rw [if_neg (by simp [henc]), htp]
      dsimp only
      rw [hread]
  · intro env cp order it hit hsame
    rw [geminiLoopResults_eq_updateResults]
    refine lookupKey_updateResults_writer cp (order.map (processSingleItemGemini env))
      _ _ ?_ ?_
    · intro kv hkv hk1
      obtain ⟨it2, hit2, rfl⟩ := List.mem_map.mp hkv
      exact hsame it2 hit2 hk1
    · exact ⟨processSingleItemGemini env it, List.mem_map_of_mem _ hit, rfl⟩
  · intro env stamp pairs
    constructor
    · intro pr hpr i hi hfail huniq e he hci
      unfold prepareBatchFileImageText at he
      dsimp only at he
      rcases prep_mem_lines env stamp pairs ([], [], 0) e he with hnil | hprov
      · cases hnil
      · obtain ⟨pr2, hpr2, i2, hi2, henc2, htext2, hid2⟩ := hprov
        have hii : i2 = i := by rw [← hci, hid2]
        have : pr2 = pr := huniq pr2 hpr2 (by rw [hi2, hii])
        subst this
        rcases hfail with hf1 | hf2
        · rw [henc2] at hf1; cases hf1
        · exact htext2 hf2
    · intro pr hpr i hi henc htext
      unfold prepareBatchFileImageText
      dsimp only
      exact prep_healthy_mem env stamp pairs ([], [], 0) pr hpr i hi henc htext

/-- Gemini environment in which no image can be encoded. -/
def encodeFailGeminiEnv : GeminiEnv :=
  { encodeImage := fun _ => none, readTextFile := fun _ => some "TXTDATA",
    respond := fun _ => "model answer" }

/-- Batch environment in which only `image5.jpg` fails to encode. -/
def mixedBatchEnv : BatchEnv :=
  { encodeImage := fun p => if p = "image5.jpg" then none else some "IMGDATA",
    readTextFile := fun _ => some "TXTDATA" }

/-- Witness for C8 (amended): an encode failure on `image7.jpg` is
recorded as its error string in direct mode; a healthy item's own
result reaches the mapping; in batch mode the failing `image5.jpg` pair
gets no request line (the only line is item 6's) while the healthy
`image6.jpg` pair does. -/
theorem c8_local_io_error_isolation_witness :
    processSingleItemGemini encodeFailGeminiEnv ⟨"image7.jpg", none⟩ =
      (natToKey 7, "Error: Image encoding failed") ∧
    lookupKey (geminiLoopResults allOkGeminiEnv [] [⟨"image7.jpg", none⟩])
        (processSingleItemGemini allOkGeminiEnv ⟨"image7.jpg", none⟩).1 =
      some (processSingleItemGemini allOkGeminiEnv ⟨"image7.jpg", none⟩).2 ∧
    ({ customId := "pair_6_0", itemId := 6 } : BatchEntry).itemId ≠ 5 ∧
    (∃ e ∈ (prepareBatchFileImageText mixedBatchEnv (fun _ => 0)
        [("image5.jpg", "text5.txt"), ("image6.jpg", "text6.txt")]).1,
      e.itemId = 6) := by
  refine ⟨?_, ?_, ?_, ?_⟩
  · exact (c8_local_io_error_isolation.1 encodeFailGeminiEnv ⟨"image7.jpg", none⟩ 7
      (by decide)).1 (by decide)
  · exact c8_local_io_error_isolation.2.1 allOkGeminiEnv [] [⟨"image7.jpg", none⟩]
      ⟨"image7.jpg", none⟩ (by decide) (by decide)
  · exact (c8_local_io_error_isolation.2.2 mixedBatchEnv (fun _ => 0)
      [("image5.jpg", "text5.txt"), ("image6.jpg", "text6.txt")]).1
      ("image5.jpg", "text5.txt") (by decide) 5 (by decide) (Or.inl (by decide))
      (by decide) { customId := "pair_6_0", itemId := 6 } (by decide)
  · exact (c8_local_io_error_isolation.2.2 mixedBatchEnv (fun _ => 0)
      [("image5.jpg", "text5.txt"), ("image6.jpg", "text6.txt")]).2
      ("image6.jpg", "text6.txt") (by decide) 6 (by decide) (by decide) (by decide)

/-! ## Claim C1: idempotent resumability -/

/-- C1: the resumed run really issues zero model requests, but its
final output artifact is NOT identical to the completed first run's.
Concretely, over items `image2.jpg` and `image10.jpg` with completion
order 10-then-2: the first run's artifact is numerically sorted
(`2, 10`), while its final `save_checkpoint` — executed BEFORE the sort
— stores the completion order (`10, 2`).  The resumed run hits the
early `return task_results` (whose own comment reads `Return existing
sorted results`) and hands the checkpoint mapping back unsorted, so the
second artifact's key order is `10, 2` ≠ `2, 10`. -/
theorem c1_resume_zero_requests_but_unsorted_artifact :
    ([⟨"image10.jpg", none⟩, ⟨"image2.jpg", none⟩] : List WorkItem).Perm
      (remainingItemsGemini (keysOf [])
        [⟨"image2.jpg", none⟩, ⟨"image10.jpg", none⟩]) ∧
    runTaskForLanguageGemini allOkGeminiEnv []
        [⟨"image2.jpg", none⟩, ⟨"image10.jpg", none⟩]
        [⟨"image10.jpg", none⟩, ⟨"image2.jpg", none⟩] =
      some [("2", "model answer"), ("10", "model answer")] ∧
    geminiFinalCheckpoint allOkGeminiEnv []
        [⟨"image2.jpg", none⟩, ⟨"image10.jpg", none⟩]
        [⟨"image10.jpg", none⟩, ⟨"image2.jpg", none⟩] =
      [("10", "model answer"), ("2", "model answer")] ∧
    geminiRequestCount [("10", "model answer"), ("2", "model answer")]
        [⟨"image2.jpg", none⟩, ⟨"image10.jpg", none⟩] = 0 ∧
    runTaskForLanguageGemini allOkGeminiEnv
        [("10", "model answer"), ("2", "model answer")]
        [⟨"image2.jpg", none⟩, ⟨"image10.jpg", none⟩] [] =
      some [("10", "model answer"), ("2", "model answer")] ∧
    (some [("10", "model answer"), ("2", "model answer")] :
        Option (List (String × String))) ≠
      some [("2", "model answer"), ("10", "model answer")] := by
  exact ⟨by decide, by decide, by decide, by decide, by decide, by decide⟩

/-! ## Claim C10: checkpoint entries are append-only within a run -/

/-- C10: both dispatchers only add results for items whose string ID is
absent from the loaded checkpoint's key set, and every key loaded at
the start of a run keeps its loaded value — in the mapping the final
`save_checkpoint` writes, in the final sorted artifact, and (batch
mode) across `task_results.update(batch_run_results)` for any chunk
whose correlation map only carries IDs outside the loaded key set
(which `get_remaining_images` guarantees). -/
theorem c10_checkpoint_append_only :
    (∀ (env : GeminiEnv) (cp : List (String × String)) (items order : List WorkItem),
        order.Perm (remainingItemsGemini (keysOf cp) items) →
        (∀ it ∈ order, (processSingleItemGemini env it).1 ∉ keysOf cp) ∧
        (∀ k ∈ keysOf cp,
          lookupKey (geminiFinalCheckpoint env cp items order) k = lookupKey cp k) ∧
        ((keysOf cp).Nodup → ∀ out,
          runTaskForLanguageGemini env cp items order = some out →
          ∀ k ∈ keysOf cp, lookupKey out k = lookupKey cp k)) ∧
    (∀ allImages processed : List String, ∀ p ∈ getRemainingImages allImages processed,
        ∃ i, getImageId (basename p) = some i ∧ natToKey i ∉ processed) ∧
    (∀ (cp : List (String × String)) (lines : List BatchLine)
        (idMap : List (String × Nat)),
        (∀ i ∈ idMap.map Prod.snd, natToKey i ∉ keysOf cp) →
        ∀ k ∈ keysOf cp,
          lookupKey (updateResults cp (processBatchResults lines idMap)) k =
            lookupKey cp k) := by
  refine ⟨?_, ?_, ?_⟩
  · intro env cp items order hperm
    have hnew : ∀ it ∈ order, (processSingleItemGemini env it).1 ∉ keysOf cp := by
      intro it hit
      obtain ⟨n, hn, hcont⟩ := mem_remainingItemsGemini (hperm.mem_iff.mp hit)
      rw [processSingleItemGemini_key env it hn]
      simpa using hcont
    have hpres : ∀ k ∈ keysOf cp,
        lookupKey (geminiLoopResults env cp order) k = lookupKey cp k := by
      intro k hk
      rw [geminiLoopResults_eq_updateResults]
      refine lookupKey_updateResults_ne cp _ ?_
      intro kv hkv
      obtain ⟨it2, hit2, rfl⟩ := List.mem_map.mp hkv
      intro hc
      exact hnew it2 hit2 (hc ▸ hk)
    refine ⟨hnew, ?_, ?_⟩
    · intro k hk
      unfold geminiFinalCheckpoint
      by_cases hrem : (remainingItemsGemini (keysOf cp) items).isEmpty = true
      · rw [if_pos hrem]
      · rw [if_neg hrem]
        exact hpres k hk
    · intro hnodup out hout k hk
      unfold runTaskForLanguageGemini at hout
      dsimp only at hout
      by_cases hrem : (remainingItemsGemini (keysOf cp) items).isEmpty = true
      · rw [if_pos hrem] at hout
        cases hout
        exact rfl
      · rw [if_neg hrem] at hout
        unfold sortByIntKey at hout
        by_cases hall : (geminiLoopResults env cp order).all
            (fun kv => (pyInt kv.1).isSome) = true
        · rw [if_pos hall] at hout
          cases hout
          have hnd : (keysOf (geminiLoopResults env cp order)).Nodup := by
            rw [geminiLoopResults_eq_updateResults]
            exact nodup_keysOf_updateResults _ _ hnodup
          rw [← lookupKey_of_perm
            (List.perm_insertionSort intKeyLE (geminiLoopResults env cp order)).symm
            hnd k]
          exact hpres k hk
        · rw [if_neg hall] at hout
          cases hout
  · intro allImages processed p hp
    unfold getRemainingImages at hp
    rw [List.mem_filter] at hp
    obtain ⟨_, hcond⟩ := hp
    cases hid : getImageId (basename p) with
    | none => rw [hid] at hcond; simp at hcond
    | some i =>
      rw [hid] at hcond
      refine ⟨i, rfl, ?_⟩
      simpa using hcond
  · intro cp lines idMap hids k hk
    refine lookupKey_updateResults_ne cp _ ?_
    intro kv hkv
    have hkey : kv.1 ∈ keysOf (processBatchResults lines idMap) :=
      List.mem_map_of_mem Prod.fst hkv
    obtain ⟨i, hi, hki⟩ := key_mem_processBatchResults hkey
    intro hc
    exact hids i hi (hki ▸ hc ▸ hk)

/-- Witness for C10: with checkpoint `{"1": "done"}` and items 1 and 2,
only item 2 is dispatched, key `1` keeps its loaded value in the saved
checkpoint and in the sorted artifact, `get_remaining_images` keeps
only image 2, and a chunk update for item 2 leaves key `1` untouched. -/
theorem c10_checkpoint_append_only_witness :
    ((processSingleItemGemini allOkGeminiEnv ⟨"image2.jpg", none⟩).1 ∉
        keysOf [("1", "done")]) ∧
    lookupKey (geminiFinalCheckpoint allOkGeminiEnv [("1", "done")]
        [⟨"image1.jpg", none⟩, ⟨"image2.jpg", none⟩] [⟨"image2.jpg", none⟩]) "1" =
      lookupKey [("1", "done")] "1" ∧
    lookupKey [("1", "done"), ("2", "model answer")] "1" =
      lookupKey [("1", "done")] "1" ∧
    (∃ i, getImageId (basename "image2.jpg") = some i ∧ natToKey i ∉ ["1"]) ∧
    lookupKey (updateResults [("1", "done")]
        (processBatchResults [.parsed "cid" (.okContent "resp")] [("cid", 2)])) "1" =
      lookupKey [("1", "done")] "1" := by
  have hperm : ([⟨"image2.jpg", none⟩] : List WorkItem).Perm
      (remainingItemsGemini (keysOf [("1", "done")])
        [⟨"image1.jpg", none⟩, ⟨"image2.jpg", none⟩]) := by decide
  have h := c10_checkpoint_append_only.1 allOkGeminiEnv [("1", "done")]
    [⟨"image1.jpg", none⟩, ⟨"image2.jpg", none⟩] [⟨"image2.jpg", none⟩] hperm
  refine ⟨h.1 ⟨"image2.jpg", none⟩ (by decide), h.2.1 "1" (by decide), ?_, ?_, ?_⟩
  · exact h.2.2 (by decide) [("1", "done"), ("2", "model answer")] (by decide)
      "1" (by decide)
  · exact c10_checkpoint_append_only.2.1 ["image1.jpg", "image2.jpg"] ["1"]
      "image2.jpg" (by decide)
  · exact c10_checkpoint_append_only.2.2 [("1", "done")]
      [.parsed "cid" (.okContent "resp")] [("cid", 2)] (by decide) "1" (by decide)

end VLURes
